import Mathlib

/-!
Verification of the spam/ham Naive Bayes classifier (`mproject3/naivebayes.py`
and `mproject3/util.py`).

Modelling decisions:

* A document is its list of words (`List String`); the source reduces each
  file to `set(util.get_words_in_file(file))`, which we mirror with
  `List.dedup` at the places where the source builds the set.
* Python/NumPy floating-point values are modelled by `PyFloat`: an exact real
  number, `+inf`, `-inf`, or `NaN`.  Rounding is abstracted away (reals are
  exact); the special values and their IEEE-754 arithmetic are modelled
  explicitly because the program produces and compares them.
* Python dicts from words to values are modelled as functions
  `String → Option α`; `none` means the key is absent, and an access to an
  absent key (a `KeyError`) is a `none` result of the whole computation.
* Fallible code returns `Option`: `learn_distributions` divides by the total
  document count (a Python `ZeroDivisionError` when both corpora are empty),
  and `classify_email` reads `log_probabilities_by_category[label][word]` in
  its else branch, which raises `KeyError` when `word` is absent.
-/

namespace NaiveBayes

/-- Model of a Python/NumPy float: an exact real, an infinity, or NaN. -/
inductive PyFloat where
  | real (x : ℝ)
  | pinf
  | ninf
  | nan

namespace PyFloat

/-- IEEE-754 addition on `PyFloat` (exact on the real part). -/
noncomputable def add : PyFloat → PyFloat → PyFloat
  | real a, real b => real (a + b)
  | real _, pinf => pinf
  | pinf, real _ => pinf
  | pinf, pinf => pinf
  | real _, ninf => ninf
  | ninf, real _ => ninf
  | ninf, ninf => ninf
  | pinf, ninf => nan
  | ninf, pinf => nan
  | nan, _ => nan
  | _, nan => nan

/-- IEEE-754 computation of `1 - x`, as in the classifier's else branch. -/
noncomputable def oneSub : PyFloat → PyFloat
  | real a => real (1 - a)
  | pinf => ninf
  | ninf => pinf
  | nan => nan

/-- IEEE-754 division on `PyFloat` (NumPy semantics: a zero denominator
yields an infinity or NaN rather than raising).  The zero value is treated
as `+0.0`, the only zero the program can produce. -/
noncomputable def div : PyFloat → PyFloat → PyFloat
  | real a, real b =>
      if b = 0 then (if a = 0 then nan else if 0 < a then pinf else ninf)
      else real (a / b)
  | real _, pinf => real 0
  | real _, ninf => real 0
  | pinf, real b => if b < 0 then ninf else pinf
  | ninf, real b => if b < 0 then pinf else ninf
  | pinf, pinf => nan
  | pinf, ninf => nan
  | ninf, pinf => nan
  | ninf, ninf => nan
  | nan, _ => nan
  | _, nan => nan

/-- The comparison `x >= 0` on floats: false for NaN and `-inf`. -/
def geZero : PyFloat → Prop
  | real x => 0 ≤ x
  | pinf => True
  | ninf => False
  | nan => False

noncomputable instance (p : PyFloat) : Decidable p.geZero := by
  cases p <;> simp only [geZero] <;> infer_instance

end PyFloat

/-- Embedding of `util.careful_log`: `-inf` at zero, otherwise `np.log`
(whose value on a negative argument is NaN). -/
noncomputable def careful_log (x : ℝ) : PyFloat :=
  if x = 0 then PyFloat.ninf
  else if x < 0 then PyFloat.nan
  else PyFloat.real (Real.log x)

/-- One `words_dict[word] += 1` step on the `defaultdict(lambda:1)`:
a missing key reads as the default `1`, so it is stored as `2`. -/
def updateWord (d : String → Option ℕ) (w : String) : String → Option ℕ :=
  fun x => if x = w then some ((d w).getD 1 + 1) else d x

/-- Processing one file in `get_counts`: each distinct word of the file
(`set(util.get_words_in_file(file))`) is incremented once. -/
def addFile (d : String → Option ℕ) (file : List String) : String → Option ℕ :=
  file.dedup.foldl updateWord d

/-- Embedding of `naivebayes.get_counts`: fold the per-file update over the
file list, starting from the empty dict. -/
def get_counts (file_list : List (List String)) : String → Option ℕ :=
  file_list.foldl addFile (fun _ => none)

/-- Embedding of `naivebayes.get_log_probabilities`.  The source computes
`numFiles = len(file_list)` but never uses it: each count is passed to
`careful_log` directly, without dividing by the number of files. -/
noncomputable def get_log_probabilities (file_list : List (List String)) :
    String → Option PyFloat :=
  fun w => (get_counts file_list w).map fun c : ℕ => careful_log (c : ℝ)

/-- Embedding of `naivebayes.learn_distributions` on the two-element input
list `[spam, ham]`.  When both corpora are empty, `class_counts/total_emails`
is the integer division `0/0`, a Python `ZeroDivisionError`, modelled as
`none`. -/
noncomputable def learn_distributions (spam ham : List (List String)) :
    Option (((String → Option PyFloat) × (String → Option PyFloat)) ×
      (PyFloat × PyFloat)) :=
  let total := spam.length + ham.length
  if total = 0 then none
  else some ((get_log_probabilities spam, get_log_probabilities ham),
    (careful_log ((spam.length : ℝ) / (total : ℝ)),
     careful_log ((ham.length : ℝ) / (total : ℝ))))

/-- One class's posterior accumulator in `classify_email`: start from the
log-prior and, for each distinct word of the email, add the table's value if
the word is a key; otherwise the source evaluates
`1 - log_probabilities_by_category[label][word]`, whose lookup of the absent
key raises `KeyError` (the `Option.map` over `none`). -/
noncomputable def scoreClass (words : List String)
    (table : String → Option PyFloat) (prior : PyFloat) : Option PyFloat :=
  words.dedup.foldl
    (fun acc w => acc.bind fun p =>
      if (table w).isSome then (table w).map fun v => p.add v
      else (table w).map fun v => p.add v.oneSub)
    (some prior)

/-- Embedding of `naivebayes.classify_email`: compute both posterior
accumulators, then return `'spam'` when `posterior[0]/posterior[1] >= 0`
and `'ham'` otherwise. -/
noncomputable def classify_email (words : List String)
    (t0 t1 : String → Option PyFloat) (pr0 pr1 : PyFloat) : Option String :=
  (scoreClass words t0 pr0).bind fun p0 =>
    (scoreClass words t1 pr1).map fun p1 =>
      if (p0.div p1).geZero then "spam" else "ham"

/-! Characterization of `get_counts`. -/

theorem updateWord_apply (d : String → Option ℕ) (w x : String) :
    updateWord d w x = if x = w then some ((d w).getD 1 + 1) else d x := rfl

theorem foldl_updateWord_apply (us : List String) (h : us.Nodup)
    (d : String → Option ℕ) (w : String) :
    us.foldl updateWord d w = if w ∈ us then some ((d w).getD 1 + 1) else d w := by
  induction us generalizing d with
  | nil => simp
  | cons u us ih =>
    obtain ⟨hu, hus⟩ := List.nodup_cons.mp h
    rw [List.foldl_cons, ih hus]
    by_cases hw : w = u
    · subst hw
      simp [hu, updateWord]
    · simp [updateWord, hw]

theorem addFile_apply (d : String → Option ℕ) (f : List String) (w : String) :
    addFile d f w = if w ∈ f then some ((d w).getD 1 + 1) else d w := by
  rw [addFile, foldl_updateWord_apply f.dedup f.nodup_dedup d w]
  simp [List.mem_dedup]

theorem foldl_addFile_apply (l : List (List String)) (d : String → Option ℕ)
    (w : String) :
    l.foldl addFile d w =
      if l.countP (fun f => decide (w ∈ f)) = 0 then d w
      else some ((d w).getD 1 + l.countP (fun f => decide (w ∈ f))) := by
  induction l generalizing d with
  | nil => simp
  | cons f l ih =>
    rw [List.foldl_cons, ih, addFile_apply, List.countP_cons]
    by_cases hf : w ∈ f
    · rw [if_pos hf, decide_eq_true hf, if_pos rfl, if_neg (Nat.succ_ne_zero _)]
      split_ifs with h0
      · rw [h0]
      · simp only [Option.getD_some, Option.some.injEq]
        omega
    · rw [if_neg hf, decide_eq_false hf, if_neg Bool.false_ne_true]
      simp

theorem get_counts_apply (l : List (List String)) (w : String) :
    get_counts l w =
      if l.countP (fun f => decide (w ∈ f)) = 0 then none
      else some (1 + l.countP (fun f => decide (w ∈ f))) := by
  rw [get_counts, foldl_addFile_apply]
  rfl

/-- C8: a word that appears in at least one file is mapped by `get_counts`
to `1` (the pseudocount) plus the number of files containing it, a word
within one file counting once; a word appearing in no file has no key. -/
theorem C8_get_counts_spec (l : List (List String)) (w : String) :
    ((∃ f ∈ l, w ∈ f) →
      get_counts l w = some (1 + l.countP fun f => decide (w ∈ f))) ∧
    ((∀ f ∈ l, w ∉ f) → get_counts l w = none) := by
  constructor
  · intro hex
    rw [get_counts_apply]
    have : l.countP (fun f => decide (w ∈ f)) ≠ 0 := by
      intro h0
      obtain ⟨f, hf, hw⟩ := hex
      have hnot := List.countP_eq_zero.mp h0 f hf
      simp at hnot
      exact hnot hw
    simp [this]
  · intro hall
    rw [get_counts_apply]
    have : l.countP (fun f => decide (w ∈ f)) = 0 :=
      List.countP_eq_zero.mpr (fun f hf => by simpa using hall f hf)
    simp [this]

/-- Witness for C8 at a concrete file list: the word `a` occurs in two of
the three files and gets count `3`; the word `z` occurs nowhere and is
absent. -/
theorem C8_get_counts_spec_witness :
    ((∃ f ∈ [["a"], ["a", "b"], ["c"]], "a" ∈ f) ∧
      get_counts [["a"], ["a", "b"], ["c"]] "a" =
        some (1 + [["a"], ["a", "b"], ["c"]].countP fun f => decide ("a" ∈ f))) ∧
    ((∀ f ∈ [["a"], ["a", "b"], ["c"]], "z" ∉ f) ∧
      get_counts [["a"], ["a", "b"], ["c"]] "z" = none) :=
  ⟨⟨by decide, (C8_get_counts_spec [["a"], ["a", "b"], ["c"]] "a").1 (by decide)⟩,
   ⟨by decide, (C8_get_counts_spec [["a"], ["a", "b"], ["c"]] "z").2 (by decide)⟩⟩

theorem get_counts_some_ge_two (l : List (List String)) (w : String) (c : ℕ)
    (h : get_counts l w = some c) : 2 ≤ c := by
  by_cases h0 : l.countP (fun f => decide (w ∈ f)) = 0
  · rw [get_counts_apply, if_pos h0] at h
    exact absurd h (by simp)
  · rw [get_counts_apply, if_neg h0] at h
    have := Option.some.inj h
    omega

theorem get_log_probabilities_single_a :
    get_log_probabilities [["a"]] "a" = some (PyFloat.real (Real.log 2)) := by
  have hc : get_counts [["a"]] "a" = some 2 := by decide
  simp only [get_log_probabilities, hc, Option.map_some']
  norm_num [careful_log]

/-! Claims about `careful_log` and `get_log_probabilities`. -/

/-- C10: `careful_log 0` is negative infinity, `careful_log 1` is `0`, and
for every positive `x` the value is the exact natural logarithm of `x`. -/
theorem C10_careful_log_values :
    careful_log 0 = PyFloat.ninf ∧ careful_log 1 = PyFloat.real 0 ∧
      ∀ x : ℝ, 0 < x → careful_log x = PyFloat.real (Real.log x) := by
  refine ⟨by simp [careful_log], ?_, ?_⟩
  · rw [careful_log]
    norm_num
  · intro x hx
    rw [careful_log, if_neg (ne_of_gt hx), if_neg (not_lt.mpr hx.le)]

/-- Witness for C10 at `x = 2`. -/
theorem C10_careful_log_values_witness :
    0 < (2 : ℝ) ∧ careful_log 2 = PyFloat.real (Real.log 2) :=
  ⟨by norm_num, C10_careful_log_values.2.2 2 (by norm_num)⟩

/-- C2 fails on the code: with two documents both containing the word `a`,
its smoothed count is `3` and `get_log_probabilities` stores `log 3` — the
source never divides the count by the number of documents (`numFiles` is
computed and then unused) — whereas the claimed value is `log (3/2)`. -/
theorem C2_no_division_by_numFiles :
    get_log_probabilities [["a"], ["a"]] "a" = some (PyFloat.real (Real.log 3)) ∧
      Real.log 3 ≠ Real.log ((3 : ℝ) / 2) := by
  constructor
  · have hc : get_counts [["a"], ["a"]] "a" = some 3 := by decide
    simp only [get_log_probabilities, hc, Option.map_some']
    norm_num [careful_log]
  · exact (Real.log_lt_log (by norm_num) (by norm_num)).ne'

/-- C3 counterexample: over the one-document list `[[a]]`, the table value
of the word `a` is `log 2 > 0`, refuting the claim that every value of
`get_log_probabilities` is `≤ 0`. -/
theorem C3_positive_log_counterexample :
    get_log_probabilities [["a"]] "a" = some (PyFloat.real (Real.log 2)) ∧
      ¬ Real.log 2 ≤ 0 :=
  ⟨get_log_probabilities_single_a, not_le.mpr (Real.log_pos (by norm_num))⟩

/-- C3 amended: for every non-empty document list, every count stored by
`get_counts` is at least `1` (indeed at least `2`), while every value of
`get_log_probabilities` is the log of such a count and is strictly
positive — not `≤ 0` as claimed. -/
theorem C3_counts_ge_one_log_positive (l : List (List String)) (hl : l ≠ [])
    (w : String) (c : ℕ) (p : PyFloat) :
    (get_counts l w = some c → 1 ≤ c) ∧
    (get_log_probabilities l w = some p → ∃ r : ℝ, p = PyFloat.real r ∧ 0 < r) := by
  constructor
  · intro hc
    have := get_counts_some_ge_two l w c hc
    omega
  · intro hp
    simp only [get_log_probabilities] at hp
    rcases hgc : get_counts l w with _ | k
    · rw [hgc] at hp
      simp at hp
    · rw [hgc] at hp
      simp only [Option.map_some', Option.some.injEq] at hp
      have h2 : 2 ≤ k := get_counts_some_ge_two l w k hgc
      have hk0 : (0 : ℝ) < (k : ℝ) := by
        exact_mod_cast Nat.pos_of_ne_zero (by omega)
      refine ⟨Real.log k, ?_, ?_⟩
      · rw [← hp, careful_log, if_neg (ne_of_gt hk0), if_neg (not_lt.mpr hk0.le)]
      · refine Real.log_pos ?_
        exact_mod_cast (show 1 < k by omega)

/-- Witness for C3 (amended) on the one-document list `[[a]]`. -/
theorem C3_counts_ge_one_log_positive_witness :
    ([["a"]] : List (List String)) ≠ [] ∧
    (get_counts [["a"]] "a" = some 2 ∧ 1 ≤ 2) ∧
    (get_log_probabilities [["a"]] "a" = some (PyFloat.real (Real.log 2)) ∧
      ∃ r : ℝ, PyFloat.real (Real.log 2) = PyFloat.real r ∧ 0 < r) :=
  ⟨by decide,
   ⟨by decide,
    (C3_counts_ge_one_log_positive [["a"]] (by decide) "a" 2
      (PyFloat.real (Real.log 2))).1 (by decide)⟩,
   ⟨get_log_probabilities_single_a,
    (C3_counts_ge_one_log_positive [["a"]] (by decide) "a" 2
      (PyFloat.real (Real.log 2))).2 get_log_probabilities_single_a⟩⟩

theorem countP_mem_ne_zero (l : List (List String)) (w : String)
    (hex : ∃ f ∈ l, w ∈ f) : l.countP (fun f => decide (w ∈ f)) ≠ 0 := by
  intro h0
  obtain ⟨f, hf, hw⟩ := hex
  have hnot := List.countP_eq_zero.mp h0 f hf
  simp at hnot
  exact hnot hw

theorem careful_log_nat_div (k t : ℕ) (ht : t ≠ 0) :
    careful_log ((k : ℝ) / (t : ℝ)) =
      if k = 0 then PyFloat.ninf
      else PyFloat.real (Real.log ((k : ℝ) / (t : ℝ))) := by
  have ht0 : (0 : ℝ) < (t : ℝ) := by exact_mod_cast Nat.pos_of_ne_zero ht
  by_cases hk : k = 0
  · simp [hk, careful_log]
  · have hk0 : (0 : ℝ) < (k : ℝ) := by exact_mod_cast Nat.pos_of_ne_zero hk
    have hx : (0 : ℝ) < (k : ℝ) / (t : ℝ) := div_pos hk0 ht0
    rw [if_neg hk, careful_log, if_neg (ne_of_gt hx), if_neg (not_lt.mpr hx.le)]

/-! Claims about `learn_distributions`. -/

/-- C7: on corpora of sizes `m` (spam) and `n` (ham) with `m + n > 0`, the
returned log-priors are, in positional order, `ln (m / (m + n))` and
`ln (n / (m + n))`, where `ln 0` is negative infinity. -/
theorem C7_learn_priors (spam ham : List (List String))
    (h : 0 < spam.length + ham.length) :
    ∃ tables, learn_distributions spam ham =
      some (tables,
        (if spam.length = 0 then PyFloat.ninf
         else PyFloat.real
           (Real.log ((spam.length : ℝ) / ((spam.length : ℝ) + (ham.length : ℝ)))),
         if ham.length = 0 then PyFloat.ninf
         else PyFloat.real
           (Real.log ((ham.length : ℝ) / ((spam.length : ℝ) + (ham.length : ℝ)))))) := by
  have htot : spam.length + ham.length ≠ 0 := Nat.pos_iff_ne_zero.mp h
  refine ⟨(get_log_probabilities spam, get_log_probabilities ham), ?_⟩
  simp only [learn_distributions]
  rw [if_neg htot, careful_log_nat_div _ _ htot, careful_log_nat_div _ _ htot,
    Nat.cast_add]

/-- Witness for C7 on one spam and one ham document: both priors are
`ln (1/2)`. -/
theorem C7_learn_priors_witness :
    0 < ([["a"]] : List (List String)).length + ([["b"]] : List (List String)).length ∧
    ∃ tables, learn_distributions [["a"]] [["b"]] =
      some (tables, (PyFloat.real (Real.log ((1 : ℝ) / 2)),
        PyFloat.real (Real.log ((1 : ℝ) / 2)))) := by
  refine ⟨by decide, ?_⟩
  obtain ⟨t, ht⟩ := C7_learn_priors [["a"]] [["b"]] (by decide)
  refine ⟨t, ?_⟩
  norm_num at ht
  exact ht

/-- C6 fails on the code: training on spam `[[a]]` and ham `[[b]]`, the
word `a` appears in a spam training document yet the learned ham table has
no key `a` — each class's table only contains that class's words. -/
theorem C6_word_missing_from_other_table :
    ("a" : String) ∈ (["a"] : List String) ∧
      (learn_distributions [["a"]] [["b"]]).map (fun m => m.1.2 "a") = some none := by
  refine ⟨by decide, ?_⟩
  have hc : get_counts [["b"]] "a" = none := by decide
  simp only [learn_distributions]
  rw [if_neg (by decide)]
  simp [get_log_probabilities, hc]

/-- C6 amended: every word that appears in at least one training document
of a class is present as a key in that class's learned table (it may be
absent from the other class's table). -/
theorem C6_word_in_own_table (spam ham : List (List String)) (w : String)
    (m : ((String → Option PyFloat) × (String → Option PyFloat)) ×
      (PyFloat × PyFloat))
    (hm : learn_distributions spam ham = some m) :
    ((∃ d ∈ spam, w ∈ d) → (m.1.1 w).isSome = true) ∧
    ((∃ d ∈ ham, w ∈ d) → (m.1.2 w).isSome = true) := by
  by_cases htot : spam.length + ham.length = 0
  · rw [learn_distributions] at hm
    simp [htot] at hm
  · simp only [learn_distributions] at hm
    rw [if_neg htot] at hm
    obtain rfl := (Option.some.inj hm).symm
    constructor <;> intro hex
    · have hcnt := countP_mem_ne_zero spam w hex
      simp only [get_log_probabilities, Option.isSome_map]
      rw [get_counts_apply, if_neg hcnt]
      rfl
    · have hcnt := countP_mem_ne_zero ham w hex
      simp only [get_log_probabilities, Option.isSome_map]
      rw [get_counts_apply, if_neg hcnt]
      rfl

/-- Witness for C6 (amended) on spam `[[a]]`, ham `[[b]]`. -/
theorem C6_word_in_own_table_witness :
    ∃ M, learn_distributions [["a"]] [["b"]] = some M ∧
      ((∃ d ∈ ([["a"]] : List (List String)), "a" ∈ d) ∧
        (M.1.1 "a").isSome = true) ∧
      ((∃ d ∈ ([["b"]] : List (List String)), "b" ∈ d) ∧
        (M.1.2 "b").isSome = true) := by
  have hm : learn_distributions [["a"]] [["b"]] =
      some ((get_log_probabilities [["a"]], get_log_probabilities [["b"]]),
        (careful_log ((([["a"]] : List (List String)).length : ℝ) /
          (((([["a"]] : List (List String)).length +
            ([["b"]] : List (List String)).length : ℕ)) : ℝ)),
         careful_log ((([["b"]] : List (List String)).length : ℝ) /
          (((([["a"]] : List (List String)).length +
            ([["b"]] : List (List String)).length : ℕ)) : ℝ)))) := by
    simp only [learn_distributions]
    rw [if_neg (by decide)]
  refine ⟨_, hm, ⟨by decide, ?_⟩, ⟨by decide, ?_⟩⟩
  · exact (C6_word_in_own_table [["a"]] [["b"]] "a" _ hm).1 (by decide)
  · exact (C6_word_in_own_table [["a"]] [["b"]] "b" _ hm).2 (by decide)

/-! Claims about `classify_email`. -/

theorem scoreClass_nil (table : String → Option PyFloat) (prior : PyFloat) :
    scoreClass [] table prior = some prior := rfl

/-- C4: whenever both posterior accumulators are computed (no `KeyError`),
the classifier returns `'spam'` exactly when `posterior[0]/posterior[1] >= 0`
holds under float semantics, and `'ham'` exactly otherwise. -/
theorem C4_ratio_decision_rule (words : List String)
    (t0 t1 : String → Option PyFloat) (pr0 pr1 : PyFloat) (p0 p1 : PyFloat)
    (h0 : scoreClass words t0 pr0 = some p0)
    (h1 : scoreClass words t1 pr1 = some p1) :
    (classify_email words t0 t1 pr0 pr1 = some "spam" ↔ (p0.div p1).geZero) ∧
    (classify_email words t0 t1 pr0 pr1 = some "ham" ↔ ¬ (p0.div p1).geZero) := by
  rw [classify_email, h0, h1, Option.some_bind', Option.map_some']
  by_cases hge : (p0.div p1).geZero
  · rw [if_pos hge]
    refine ⟨⟨fun _ => hge, fun _ => rfl⟩, ⟨fun hcontra => ?_, fun hn => absurd hge hn⟩⟩
    exact absurd (Option.some.inj hcontra) (by decide)
  · rw [if_neg hge]
    refine ⟨⟨fun hcontra => ?_, fun hg => absurd hg hge⟩, ⟨fun _ => hge, fun _ => rfl⟩⟩
    exact absurd (Option.some.inj hcontra) (by decide)

/-- Witness for C4 on the empty document with priors `1` and `2`: the ratio
`1/2` is nonnegative, so the label is `'spam'`. -/
theorem C4_ratio_decision_rule_witness :
    scoreClass [] (fun _ => none) (PyFloat.real 1) = some (PyFloat.real 1) ∧
    scoreClass [] (fun _ => none) (PyFloat.real 2) = some (PyFloat.real 2) ∧
    ((classify_email [] (fun _ => none) (fun _ => none) (PyFloat.real 1)
        (PyFloat.real 2) = some "spam" ↔
        ((PyFloat.real 1).div (PyFloat.real 2)).geZero) ∧
     (classify_email [] (fun _ => none) (fun _ => none) (PyFloat.real 1)
        (PyFloat.real 2) = some "ham" ↔
        ¬ ((PyFloat.real 1).div (PyFloat.real 2)).geZero)) :=
  ⟨rfl, rfl,
   C4_ratio_decision_rule [] (fun _ => none) (fun _ => none) (PyFloat.real 1)
     (PyFloat.real 2) (PyFloat.real 1) (PyFloat.real 2) rfl rfl⟩

/-- C5: when both posterior accumulators are strictly negative reals, the
ratio is positive, so the classifier returns `'spam'` no matter which
accumulator is larger. -/
theorem C5_both_negative_gives_spam (words : List String)
    (t0 t1 : String → Option PyFloat) (pr0 pr1 : PyFloat) (a b : ℝ)
    (h0 : scoreClass words t0 pr0 = some (PyFloat.real a))
    (h1 : scoreClass words t1 pr1 = some (PyFloat.real b))
    (ha : a < 0) (hb : b < 0) :
    classify_email words t0 t1 pr0 pr1 = some "spam" := by
  rw [classify_email, h0, h1, Option.some_bind', Option.map_some']
  have hdiv : (PyFloat.real a).div (PyFloat.real b) = PyFloat.real (a / b) := by
    rw [PyFloat.div, if_neg hb.ne]
  rw [hdiv]
  have hge : (PyFloat.real (a / b)).geZero :=
    (div_pos_iff.mpr (Or.inr ⟨ha, hb⟩)).le
  rw [if_pos hge]

/-- Witness for C5: the empty document with both log-priors finite and
strictly negative is labeled `'spam'`. -/
theorem C5_both_negative_gives_spam_witness :
    scoreClass [] (fun _ => none) (PyFloat.real (-1)) =
      some (PyFloat.real (-1)) ∧
    scoreClass [] (fun _ => none) (PyFloat.real (-2)) =
      some (PyFloat.real (-2)) ∧
    (-1 : ℝ) < 0 ∧ (-2 : ℝ) < 0 ∧
    classify_email [] (fun _ => none) (fun _ => none) (PyFloat.real (-1))
      (PyFloat.real (-2)) = some "spam" :=
  ⟨rfl, rfl, by norm_num, by norm_num,
   C5_both_negative_gives_spam [] (fun _ => none) (fun _ => none)
     (PyFloat.real (-1)) (PyFloat.real (-2)) (-1) (-2) rfl rfl
     (by norm_num) (by norm_num)⟩

/-- C1 fails on the code: with the model learned from spam `[[a]]` and ham
`[[a]]`, classifying the document `[b]` reads
`log_probabilities_by_category[label][b]` in the else branch even though
`b` is not a key, a `KeyError` — the classification does not complete. -/
theorem C1_unseen_word_keyerror :
    ∃ M, learn_distributions [["a"]] [["a"]] = some M ∧
      classify_email ["b"] M.1.1 M.1.2 M.2.1 M.2.2 = none := by
  refine ⟨((get_log_probabilities [["a"]], get_log_probabilities [["a"]]),
    (careful_log ((([["a"]] : List (List String)).length : ℝ) /
      (((([["a"]] : List (List String)).length +
        ([["a"]] : List (List String)).length : ℕ)) : ℝ)),
     careful_log ((([["a"]] : List (List String)).length : ℝ) /
      (((([["a"]] : List (List String)).length +
        ([["a"]] : List (List String)).length : ℕ)) : ℝ)))), ?_, ?_⟩
  · simp only [learn_distributions]
    rw [if_neg (by decide)]
  · rfl

/-- C9 on the code: with zero spam training documents, learning completes
and the spam log-prior is `-inf`; classifying the empty document completes
and does not return the empty class; but classifying any document whose
words the empty class has never seen (here `[a]`) hits the `KeyError` of
the else branch, so classification does not always complete. -/
theorem C9_empty_class_behaviour :
    ∃ M, learn_distributions [] [["a"]] = some M ∧
      M.2.1 = PyFloat.ninf ∧
      classify_email [] M.1.1 M.1.2 M.2.1 M.2.2 = some "ham" ∧
      classify_email ["a"] M.1.1 M.1.2 M.2.1 M.2.2 = none := by
  have h0 : careful_log ((([] : List (List String)).length : ℝ) /
      (((([] : List (List String)).length +
        ([["a"]] : List (List String)).length : ℕ)) : ℝ)) = PyFloat.ninf := by
    norm_num [careful_log]
  have h1 : careful_log ((([["a"]] : List (List String)).length : ℝ) /
      (((([] : List (List String)).length +
        ([["a"]] : List (List String)).length : ℕ)) : ℝ)) = PyFloat.real 0 := by
    norm_num [careful_log, Real.log_one]
  refine ⟨((get_log_probabilities [], get_log_probabilities [["a"]]),
    (PyFloat.ninf, PyFloat.real 0)), ?_, rfl, ?_, ?_⟩
  · simp only [learn_distributions]
    rw [if_neg (by decide), h0, h1]
  · rw [classify_email, scoreClass_nil, scoreClass_nil, Option.some_bind',
      Option.map_some']
    have hdiv : PyFloat.ninf.div (PyFloat.real 0) = PyFloat.ninf := by
      rw [PyFloat.div]
      exact if_neg (lt_irrefl 0)
    have hng : ¬ PyFloat.ninf.geZero := fun h => h
    rw [hdiv, if_neg hng]
  · rfl

end NaiveBayes
